import Mathlib

/-!
Verification development for a single-file PDF-scraping script (`src/main.py`).

The script loads one seed page in a browser, extracts anchor hrefs ending in
".pdf", and downloads each one into a destination folder, skipping files that
are already present.  This file shallowly embeds the script's data model and
operations in Lean:

* strings are Lean `String`s (lists of characters);
* the Python standard-library helpers the script calls (`urllib.parse.urlsplit`,
  `urllib.parse.urlparse`, `urllib.parse.unquote`, `os.path.basename`,
  `str.lower`, `os.path.join`) are embedded as executable Lean functions at the
  character level (ASCII-accurate; multi-byte UTF-8 percent-escapes are decoded
  byte-by-byte, which agrees with CPython on all ASCII inputs);
* the destination folder is an association list from filenames to contents;
* time-varying directory contents seen by the download watcher are a function
  from poll ticks (one tick = one 0.5-time-unit sleep) to directory listings;
* Python exceptions are `Except String` values: a raised exception is `.error`,
  a normal return is `.ok`.
-/

deriving instance DecidableEq for Except

namespace Millcraft

/-! ## Character and string utilities -/

/-- ASCII lower-casing of a single character, as Python's `str.lower` acts on
the ASCII range (the only range the script's data exercises). -/
def py_lower_char (c : Char) : Char :=
  match c with
  | 'A' => 'a'
  | 'B' => 'b'
  | 'C' => 'c'
  | 'D' => 'd'
  | 'E' => 'e'
  | 'F' => 'f'
  | 'G' => 'g'
  | 'H' => 'h'
  | 'I' => 'i'
  | 'J' => 'j'
  | 'K' => 'k'
  | 'L' => 'l'
  | 'M' => 'm'
  | 'N' => 'n'
  | 'O' => 'o'
  | 'P' => 'p'
  | 'Q' => 'q'
  | 'R' => 'r'
  | 'S' => 's'
  | 'T' => 't'
  | 'U' => 'u'
  | 'V' => 'v'
  | 'W' => 'w'
  | 'X' => 'x'
  | 'Y' => 'y'
  | 'Z' => 'z'
  | other => other

/-- Model of Python's `str.lower` (ASCII range). -/
def py_lower (s : String) : String :=
  String.mk (s.data.map py_lower_char)

/-- Model of Python's `str.endswith`: `strHasSuffix s t` is true when `t` is a
suffix of `s`. -/
def strHasSuffix (s t : String) : Bool :=
  if t.data.length ≤ s.data.length then
    s.data.drop (s.data.length - t.data.length) == t.data
  else false

/-- Value of a hexadecimal digit character, if any. -/
def hexVal (c : Char) : Option Nat :=
  if '0' ≤ c ∧ c ≤ '9' then some (c.toNat - 48)
  else if 'a' ≤ c ∧ c ≤ 'f' then some (c.toNat - 87)
  else if 'A' ≤ c ∧ c ≤ 'F' then some (c.toNat - 55)
  else none

/-- Model of `urllib.parse.unquote` on character lists: each valid `%XX`
escape becomes the character with code `XX`; invalid escapes are left intact,
exactly as in CPython.  (CPython additionally merges multi-byte UTF-8 escape
runs; on ASCII escapes, the two agree.) -/
def unquoteChars : List Char → List Char
  | [] => []
  | '%' :: a :: b :: rest =>
    match hexVal a, hexVal b with
    | some ha, some hb => Char.ofNat (16 * ha + hb) :: unquoteChars rest
    | _, _ => '%' :: unquoteChars (a :: b :: rest)
  | c :: rest => c :: unquoteChars rest

/-- Model of `urllib.parse.unquote` on strings. -/
def unquote (s : String) : String :=
  String.mk (unquoteChars s.data)

/-- Split a character list at the first occurrence of `c`, returning the parts
before and after it (the separator removed), or `none` if `c` is absent.
Models Python's `str.split(c, 1)` / `str.find(c)`. -/
def splitAtFirst (c : Char) : List Char → Option (List Char × List Char)
  | [] => none
  | x :: rest =>
    if x = c then some ([], rest)
    else (splitAtFirst c rest).map (fun p => (x :: p.1, p.2))

/-- Split off the part after the first occurrence of `c`, keeping everything
when `c` is absent; models `url.split(c, 1)` guarded by `c in url`. -/
def splitOffAtFirst (c : Char) (l : List Char) : List Char × List Char :=
  match splitAtFirst c l with
  | none => (l, [])
  | some p => p

/-! ## Model of `urllib.parse.urlsplit` / `urlparse` (CPython) -/

/-- Characters CPython's `urlsplit` removes from the URL before parsing. -/
def removeUnsafe (l : List Char) : List Char :=
  l.filter (fun c => !(c == '\t' || c == '\r' || c == '\n'))

/-- Characters allowed in a URL scheme by CPython's `urlsplit`. -/
def schemeChar (c : Char) : Bool :=
  c.isAlpha || c.isDigit || c == '+' || c == '-' || c == '.'

/-- Scheme-detection step of CPython's `urlsplit`: if there is a colon at a
positive index, the first character is an ASCII letter, and everything before
the colon is a scheme character, the scheme is split off and lower-cased. -/
def splitScheme (l : List Char) : List Char × List Char :=
  match splitAtFirst ':' l with
  | none => ([], l)
  | some (before, after) =>
    if before ≠ [] ∧ (l.head?.elim false Char.isAlpha) ∧ before.all schemeChar then
      (before.map py_lower_char, after)
    else ([], l)

/-- Characters that end the network-location section in CPython's
`_splitnetloc`. -/
def netlocDelim (c : Char) : Bool :=
  c == '/' || c == '?' || c == '#'

/-- Result record of `urllib.parse.urlsplit`. -/
structure UrlSplitResult where
  scheme : String
  netloc : String
  path : String
  query : String
  fragment : String
  deriving DecidableEq

/-- Model of CPython's `urllib.parse.urlsplit`.  An `.error` value models the
`ValueError("Invalid IPv6 URL")` that CPython raises when the network location
contains an unbalanced square bracket.  (CPython 3.11+ additionally validates
the contents of a balanced bracket pair; no claim depends on that check.) -/
def urlsplit (url : String) : Except String UrlSplitResult :=
  let l0 := removeUnsafe url.data
  let (scheme, l1) := splitScheme l0
  let netlocStep : Except String (List Char × List Char) :=
    match l1 with
    | '/' :: '/' :: rest =>
      let nl := rest.takeWhile (fun c => !netlocDelim c)
      let rest2 := rest.drop nl.length
      if (nl.contains '[' && !nl.contains ']') || (nl.contains ']' && !nl.contains '[') then
        Except.error "Invalid IPv6 URL"
      else Except.ok (nl, rest2)
    | _ => Except.ok ([], l1)
  match netlocStep with
  | Except.error e => Except.error e
  | Except.ok (netloc, l2) =>
    let (l3, fragment) := splitOffAtFirst '#' l2
    let (l4, query) := splitOffAtFirst '?' l3
    Except.ok ⟨String.mk scheme, String.mk netloc, String.mk l4,
               String.mk query, String.mk fragment⟩

/-- Schemes for which CPython's `urlparse` splits `;parameters` off the path
(the `uses_params` table of `urllib.parse`). -/
def uses_params : List String :=
  ["", "ftp", "hdl", "prospero", "http", "imap", "https", "shttp", "rtsp",
   "rtspu", "sip", "sips", "mms", "sftp", "tel"]

/-- Final segment of a character list: everything after the last slash. -/
def finalSegOf (p : List Char) : List Char :=
  (p.reverse.takeWhile (fun c => !(c == '/'))).reverse

/-- Model of CPython's `urllib.parse._splitparams`, returning the path with the
`;parameters` section removed: when the path contains a slash, the split point
is the first semicolon in the final segment; otherwise it is the first
semicolon anywhere. -/
def splitparams (p : List Char) : List Char :=
  if p.contains '/' then
    if (finalSegOf p).contains ';' then
      p.take (p.length - (finalSegOf p).length) ++
        (finalSegOf p).takeWhile (fun c => !(c == ';'))
    else p
  else p.takeWhile (fun c => !(c == ';'))

/-- Path component returned by CPython's `urlparse(url).path`: the `urlsplit`
path, with `;parameters` split off when the scheme uses parameters. -/
def urlparse_path (url : String) : Except String String :=
  match urlsplit url with
  | Except.error e => Except.error e
  | Except.ok r =>
    if uses_params.contains r.scheme && r.path.data.contains ';' then
      Except.ok (String.mk (splitparams r.path.data))
    else Except.ok r.path

/-- Model of POSIX `os.path.basename`: everything after the last slash. -/
def os_path_basename (s : String) : String :=
  String.mk (finalSegOf s.data)

/-- Model of `os.path.join` for a folder with no trailing slash and a relative
filename, the only shapes the script produces. -/
def join (folder filename : String) : String :=
  String.mk (folder.data ++ '/' :: filename.data)

/-! ## The script's helper functions (src/main.py) -/

/-- Embedding of `extract_filename_from_url` (src/main.py lines 30-36):
`os.path.basename(unquote(urlparse(url).path)).lower()`, with the fixed
fallback `"downloaded.pdf"` when the result is empty.  The `.error` case
models the `ValueError` that `urlparse` can raise, which this function
propagates. -/
def extract_filename_from_url (url : String) : Except String String :=
  match urlparse_path url with
  | Except.error e => Except.error e
  | Except.ok path =>
    let filename := py_lower (os_path_basename (unquote path))
    Except.ok (if filename == "" then "downloaded.pdf" else filename)

/-- Final path segment of a string: the part after the last slash.  Written
from the spec's words "take its final path segment" for the reference
filename derivation. -/
def final_path_segment (s : String) : String :=
  String.mk (finalSegOf s.data)

/-- Reference filename derivation, following the spec's words: "take the path
component only (discard query/fragment), percent-decode it, take its final
path segment, lower-case it.  If the result is empty, return a fixed fallback
name (e.g. "downloaded.pdf")."  The path component is the `urlsplit` path,
with query and fragment discarded but nothing else removed. -/
def spec_derive_filename (url : String) : Except String String :=
  match urlsplit url with
  | Except.error e => Except.error e
  | Except.ok r =>
    let name := py_lower (final_path_segment (unquote r.path))
    Except.ok (if name == "" then "downloaded.pdf" else name)

/-- An HTML document abstracted as the sequence of `href` attribute values of
its anchor elements, in document order.  BeautifulSoup's tag traversal is
external library code; the embedding of `parse_html` starts from the anchor
list it yields. -/
abbrev HtmlDoc := List String

/-- Embedding of `parse_html` (src/main.py lines 161-172): keep the raw href
values whose percent-decoded, lower-cased form ends in ".pdf". -/
def parse_html (anchors : HtmlDoc) : List String :=
  anchors.filter (fun href => strHasSuffix (py_lower (unquote href)) ".pdf")

/-- Embedding of `remove_duplicates_from_slice` (src/main.py lines 176-179).
Python's `list(set(xs))` returns the distinct elements of `xs` in an
unspecified order; the embedding fixes one concrete duplicate-free
enumeration (`List.dedup`), and claims about it are stated at the level of
the underlying set. -/
def remove_duplicates_from_slice (provided_slice : List String) : List String :=
  provided_slice.dedup

/-! ## Model of the URL validator -/

/-- Characters accepted in a registered-name host label by the validator
model. -/
def hostChar (c : Char) : Bool :=
  c.isAlpha || c.isDigit || c == '.' || c == '-' || c == '_'

/-- Characters accepted inside a bracketed IPv6 host by the validator model. -/
def bracketHostChar (c : Char) : Bool :=
  (hexVal c).isSome || c == ':'

/-- Scan for the literal scheme separator `"://"`, returning what stands
before and after it. -/
def splitSchemeSep : List Char → Option (List Char × List Char)
  | [] => none
  | ':' :: '/' :: '/' :: rest => some ([], rest)
  | c :: rest => (splitSchemeSep rest).map (fun p => (c :: p.1, p.2))

/-- Host-and-port section of an authority: what follows the last `@`. -/
def afterLastAt (l : List Char) : List Char :=
  (l.reverse.takeWhile (fun c => !(c == '@'))).reverse

/-- Well-formedness of the host-and-port section in the validator model:
a non-empty host of valid characters, either bracketed (IPv6) or a registered
name, followed by an optional `:port` of digits. -/
def validHostPort : List Char → Bool
  | [] => false
  | '[' :: rest =>
    match splitAtFirst ']' rest with
    | none => false
    | some (inside, after) =>
      !inside.isEmpty && inside.all bracketHostChar &&
        (after.isEmpty ||
          (after.head? == some ':' && !(after.drop 1).isEmpty &&
            (after.drop 1).all Char.isDigit))
  | hp =>
    !hp.contains '[' && !hp.contains ']' &&
      (match splitAtFirst ':' hp with
       | none => !hp.isEmpty && hp.all hostChar
       | some (host, port) =>
         !host.isEmpty && host.all hostChar && !port.isEmpty &&
           port.all Char.isDigit)

/-- Modelled from the spec: `is_valid_url` (src/main.py lines 25-27) delegates
to the external `validators.url` library, whose code is not part of this
repository.  Per the spec it is a pure boolean test that "must reject empty
strings, strings without a scheme, and malformed authority sections" and
returns false "for all strings lacking a scheme or host".  The model requires
a `scheme://authority` shape: a non-empty scheme starting with a letter, and a
well-formed, non-empty host in the authority section. -/
def is_valid_url (url : String) : Bool :=
  match splitSchemeSep url.data with
  | none => false
  | some (scheme, rest) =>
    !scheme.isEmpty && (scheme.head?.elim false Char.isAlpha) &&
      scheme.all schemeChar &&
      validHostPort (afterLastAt (rest.takeWhile (fun c => !netlocDelim c)))

/-! ## The download watcher (wait_for_pdf_download, src/main.py lines 79-99)

Time is discretised into poll ticks: the loop body runs once per tick and each
`time.sleep(0.5)` advances one tick, so a timeout of `timeout` time units
allows `2 * timeout` polls (the poll at elapsed time exactly `timeout` fails
the `time.time() < deadline` guard).  The directory contents at each tick are
given by a trace `Nat → List String`, and the `os.path.exists` re-check is
vacuously true in the model because a listed file is present by definition. -/

/-- One poll step: the first listed file that is new relative to the baseline,
ends in ".pdf" and does not end in ".crdownload" (Python iterates the set
difference in unspecified order; the model fixes listing order). -/
def find_new_pdf (existing_files current_files : List String) : Option String :=
  current_files.find? (fun filename =>
    !existing_files.contains filename &&
      (strHasSuffix filename ".pdf" && !strHasSuffix filename ".crdownload"))

/-- Polling loop of `wait_for_pdf_download`: arguments are the current tick
and the remaining number of polls; the result carries the tick at which the
loop returned or raised. -/
def wait_loop (download_folder : String) (trace : Nat → List String)
    (existing_files : List String) : Nat → Nat → Except String String × Nat
  | tick, 0 => (Except.error "PDF download timed out.", tick)
  | tick, fuel + 1 =>
    match find_new_pdf existing_files (trace tick) with
    | some filename => (Except.ok (join download_folder filename), tick)
    | none => wait_loop download_folder trace existing_files (tick + 1) fuel

/-- Embedding of `wait_for_pdf_download`: poll `2 * timeout` times starting at
tick 0; return the joined path of the first qualifying new file, or raise
`TimeoutError("PDF download timed out.")` after the deadline.  The second
component is the tick (half-time-unit) at which the call finished. -/
def wait_for_pdf_download (download_folder : String) (trace : Nat → List String)
    (existing_files : List String) (timeout : Nat) : Except String String × Nat :=
  wait_loop download_folder trace existing_files 0 (2 * timeout)

/-! ## The destination folder and the download orchestrator -/

/-- The destination folder as an association list from filenames to file
contents (first binding wins). -/
abbrev Fs := List (String × String)

/-- Contents of the file named `name`, if present. -/
def fsGet (fs : Fs) (name : String) : Option String :=
  (fs.find? (fun e => e.1 == name)).map (fun e => e.2)

/-- Remove the file named `name`. -/
def fsRemove (fs : Fs) (name : String) : Fs :=
  fs.filter (fun e => !(e.1 == name))

/-- Create or overwrite the file named `name` with `content`. -/
def fsSet (fs : Fs) (name content : String) : Fs :=
  (name, content) :: fsRemove fs name

/-- Directory listing: the filenames present, as seen by `os.listdir`. -/
def fsNames (fs : Fs) : List String :=
  fs.map (fun e => e.1)

/-- Embedding of `file_exists` (src/main.py lines 39-42). -/
def file_exists (fs : Fs) (file_path : String) : Bool :=
  (fsGet fs file_path).isSome

/-- Write each of `files` into the folder in order. -/
def fsAddAll (fs : Fs) (files : List (String × String)) : Fs :=
  files.foldl (fun acc pr => fsSet acc pr.1 pr.2) fs

/-- Environment of one `download_pdf` call: whether `web_driver.get` raises,
which files the browser's own download handling drops into the folder while
the watcher is polling, and whether `shutil.move` raises.  The dropped files
are modelled as all present from the first poll onward (a constant directory
trace); time-varying arrival is exercised separately through the watcher's
trace parameter. -/
structure DlEnv where
  navOutcome : Except String Unit
  dropped : List (String × String)
  moveOutcome : Except String Unit

/-- Per-URL outcome reported by the orchestrator on its normal return: the
four console-report cases of `download_pdf`. -/
inductive DlStatus where
  | invalidUrl
  | alreadyExists
  | success (path : String)
  | failed (msg : String)
  deriving DecidableEq

/-- Embedding of `download_pdf` (src/main.py lines 102-138): validate the URL,
derive the target filename, skip if the target exists, snapshot the folder,
navigate, await the download, and move the result onto the target name.  The
result pairs the folder state after the call with `Except.ok status` for a
normal return; `Except.error` models the one uncaught exception path, the
`ValueError` that `extract_filename_from_url` can raise before the `try`
block.  Exceptions from navigation, waiting, and the move are caught by the
`except` clause and become `DlStatus.failed`; a missing move source would
make `shutil.move` raise, which the same clause catches. -/
def download_pdf (url download_folder : String) (env : DlEnv) (fs : Fs) :
    Fs × Except String DlStatus :=
  if !is_valid_url url then (fs, Except.ok DlStatus.invalidUrl)
  else
    match extract_filename_from_url url with
    | Except.error e => (fs, Except.error e)
    | Except.ok filename =>
      if file_exists fs filename then (fs, Except.ok DlStatus.alreadyExists)
      else
        let existing_files := fsNames fs
        match env.navOutcome with
        | Except.error e => (fs, Except.ok (DlStatus.failed e))
        | Except.ok _ =>
          let fs1 := fsAddAll fs env.dropped
          match (wait_for_pdf_download download_folder (fun _ => fsNames fs1)
                  existing_files 60).1 with
          | Except.error e => (fs1, Except.ok (DlStatus.failed e))
          | Except.ok downloaded_path =>
            match env.moveOutcome with
            | Except.error e => (fs1, Except.ok (DlStatus.failed e))
            | Except.ok _ =>
              match fsGet fs1 (os_path_basename downloaded_path) with
              | none => (fs1, Except.ok (DlStatus.failed "move failed"))
              | some content =>
                (fsSet (fsRemove fs1 (os_path_basename downloaded_path)) filename content,
                 Except.ok (DlStatus.success (join download_folder filename)))

/-! ## The batch loop and main (src/main.py lines 187-232) -/

/-- The fixed domain prepended to relative links in main's loop. -/
def base_domain : String := "https://millcraft.com"

/-- Whether the pattern list is an initial run of the other list. -/
def listStarts : List Char → List Char → Bool
  | [], _ => true
  | _ :: _, [] => false
  | p :: ps, c :: cs => p == c && listStarts ps cs

/-- Model of `pdf_link.lower().startswith("http")`. -/
def startsWithHttp (s : String) : Bool :=
  listStarts "http".data (py_lower s).data

/-- Model of `urllib.parse.urljoin` specialised to the fixed base
`"https://millcraft.com"`, for the link shapes main's loop passes it
(scheme-relative, root-relative, query, fragment, plain relative, or a link
with its own non-http scheme).  Dot-segment resolution is not modelled; no
claim depends on it. -/
def urljoin_millcraft (rel : String) : String :=
  match rel.data with
  | [] => base_domain
  | '/' :: '/' :: rest => String.mk ('h' :: 't' :: 't' :: 'p' :: 's' :: ':' :: '/' :: '/' :: rest)
  | '/' :: rest => String.mk (base_domain.data ++ '/' :: rest)
  | '?' :: rest => String.mk (base_domain.data ++ '?' :: rest)
  | '#' :: rest => String.mk (base_domain.data ++ '#' :: rest)
  | l => if (splitScheme l).1.isEmpty then String.mk (base_domain.data ++ '/' :: l) else rel

/-- Link normalisation done at the top of main's loop (src/main.py
lines 211-214): prepend the domain unless the link already starts with
"http" case-insensitively. -/
def normalize_link (pdf_link : String) : String :=
  if startsWithHttp pdf_link then pdf_link else urljoin_millcraft pdf_link

/-- Embedding of main's download loop (src/main.py lines 211-225): normalise
each link, skip invalid URLs, and run `download_pdf` on the rest, threading
the folder state.  A propagating exception from `download_pdf` aborts the
loop, exactly as an uncaught Python exception would. -/
def process_urls (download_folder : String) :
    Fs → List (String × DlEnv) → Fs × Except String (List DlStatus)
  | fs, [] => (fs, Except.ok [])
  | fs, (link, env) :: rest =>
    let url := normalize_link link
    if !is_valid_url url then
      let r := process_urls download_folder fs rest
      (r.1, r.2.map (fun sts => DlStatus.invalidUrl :: sts))
    else
      match download_pdf url download_folder env fs with
      | (fs', Except.error e) => (fs', Except.error e)
      | (fs', Except.ok st) =>
        let r := process_urls download_folder fs' rest
        (r.1, r.2.map (fun sts => st :: sts))

/-- The destination folder name used by main (modelled without the
`os.path.abspath` prefix, which only absolutises the same fixed name). -/
def output_folder : String := "PDFs"

/-- Environment of one run of `main` after the browser session is acquired:
the initial destination folder, the cached snapshot file's contents if it
exists, the outcome of fetching the seed page, and the per-link download
environments. -/
structure MainEnv where
  fs0 : Fs
  snapshot0 : Option HtmlDoc
  fetchOutcome : Except String HtmlDoc
  dlEnvs : String → DlEnv

/-- Observable outcome of one run of `main`: the final folder, the snapshot
file and how many times it was written, whether the browser navigated to the
seed page, the extracted links, the per-URL statuses, the exception caught by
main's `except` clause if any, and whether `driver.quit()` ran. -/
structure MainResult where
  fs : Fs
  snapshot : Option HtmlDoc
  snapshotWrites : Nat
  seedNavigated : Bool
  links : List String
  statuses : List DlStatus
  caughtError : Option String
  driverQuit : Bool

/-- The parse-and-download block of main (src/main.py lines 206-225), run
when the snapshot file exists: read it, extract and deduplicate the PDF
links, and process them. -/
def run_links (env : MainEnv) (doc : HtmlDoc) (snap : Option HtmlDoc)
    (writes : Nat) (navigated : Bool) : MainResult :=
  let pdf_links := remove_duplicates_from_slice (parse_html doc)
  let r := process_urls output_folder env.fs0 (pdf_links.map (fun l => (l, env.dlEnvs l)))
  { fs := r.1, snapshot := snap, snapshotWrites := writes, seedNavigated := navigated,
    links := pdf_links,
    statuses := match r.2 with | Except.ok sts => sts | Except.error _ => [],
    caughtError := match r.2 with | Except.ok _ => none | Except.error e => some e,
    driverQuit := false }

/-- Embedding of `main` (src/main.py lines 187-232) from the point where the
browser session has been acquired: if the snapshot file is absent, navigate
to the seed page and append the rendered HTML to it (one write) — a fetch
failure propagates to main's `except` clause and nothing is written; then, if
the snapshot file exists, parse it and run the download loop.  The `finally`
clause closes the browser session on every path. -/
def main_run (env : MainEnv) : MainResult :=
  let afterTry : MainResult :=
    match env.snapshot0 with
    | some doc => run_links env doc (some doc) 0 false
    | none =>
      match env.fetchOutcome with
      | Except.error e =>
        { fs := env.fs0, snapshot := none, snapshotWrites := 0, seedNavigated := true,
          links := [], statuses := [], caughtError := some e, driverQuit := false }
      | Except.ok doc => run_links env doc (some doc) 1 true
  { afterTry with driverQuit := true }

/-- The lower-case ASCII letters. -/
def lowerAlphabet : List Char :=
  ['a', 'b', 'c', 'd', 'e', 'f', 'g', 'h', 'i', 'j', 'k', 'l', 'm',
   'n', 'o', 'p', 'q', 'r', 's', 't', 'u', 'v', 'w', 'x', 'y', 'z']

/-- Directory trace of the watcher scenario: the folder is empty for the
first time unit (ticks 0 and 1), holds the partial-download marker file
during the second (ticks 2 and 3), and holds the finished file from then
on. -/
def scenario_trace : Nat → List String := fun t =>
  if t < 2 then [] else if t < 4 then ["x.pdf.crdownload"] else ["x.pdf"]

/-- Download environment in which navigation and the move succeed and the
browser drops nothing. -/
def quietDlEnv : DlEnv :=
  { navOutcome := Except.ok (), dropped := [], moveOutcome := Except.ok () }

/-- Download environment whose browser navigation raises. -/
def offlineDlEnv : DlEnv :=
  { navOutcome := Except.error "offline", dropped := [], moveOutcome := Except.ok () }

/-- Environment exhibiting the counterexample to claim C9 as stated: the
snapshot file is absent and fetching the seed page raises. -/
def fetchFailEnv : MainEnv :=
  { fs0 := [], snapshot0 := none, fetchOutcome := Except.error "seed fetch failed",
    dlEnvs := fun _ => quietDlEnv }

/-- Environment of a run whose snapshot file already exists (used to witness
the amended claim C9). -/
def cachedEnv : MainEnv :=
  { fs0 := [], snapshot0 := some ["/a.pdf"], fetchOutcome := Except.error "unused",
    dlEnvs := fun _ => offlineDlEnv }

/-- Environment of a first run whose seed fetch succeeds (used to witness the
amended claim C9). -/
def freshFetchEnv : MainEnv :=
  { fs0 := [], snapshot0 := none, fetchOutcome := Except.ok ["/a.pdf"],
    dlEnvs := fun _ => offlineDlEnv }

/-! ## Helper lemmas -/

theorem py_lower_char_self_or_lower (c : Char) :
    py_lower_char c = c ∨ py_lower_char c ∈ lowerAlphabet := by
  unfold py_lower_char
  split
  all_goals first | decide | exact Or.inl rfl

theorem py_lower_char_fix {d : Char} (hd : d ∈ lowerAlphabet) : py_lower_char d = d := by
  fin_cases hd <;> rfl

theorem py_lower_char_idem (c : Char) :
    py_lower_char (py_lower_char c) = py_lower_char c := by
  rcases py_lower_char_self_or_lower c with h | h
  · rw [h]; exact h
  · exact py_lower_char_fix h

theorem py_lower_char_eq_slash {c : Char} (h : py_lower_char c = '/') : c = '/' := by
  rcases py_lower_char_self_or_lower c with h2 | h2
  · rw [h] at h2; exact h2.symm
  · rw [h] at h2; exact absurd h2 (by decide)

theorem map_lower_idem (l : List Char) :
    (l.map py_lower_char).map py_lower_char = l.map py_lower_char := by
  induction l with
  | nil => rfl
  | cons c cs ih => simp [ih, py_lower_char_idem]

theorem py_lower_idem (s : String) : py_lower (py_lower s) = py_lower s :=
  congrArg String.mk (map_lower_idem s.data)

theorem slash_mem_of_mem_py_lower {s : String} (h : '/' ∈ (py_lower s).data) :
    '/' ∈ s.data := by
  rcases List.mem_map.mp h with ⟨a, ha, hfa⟩
  exact (py_lower_char_eq_slash hfa) ▸ ha

theorem takeWhile_append_all {p : Char → Bool} {l1 : List Char} (l2 : List Char) (d : Char)
    (h1 : ∀ a ∈ l1, p a = true) (hd : p d = false) :
    (l1 ++ d :: l2).takeWhile p = l1 := by
  induction l1 with
  | nil => simp [List.takeWhile_cons, hd]
  | cons a as ih =>
    have ha : p a = true := h1 a (by simp)
    simp [List.takeWhile_cons, ha, ih (fun x hx => h1 x (by simp [hx]))]

theorem not_slash_mem_basename (s : String) : '/' ∉ (os_path_basename s).data := by
  intro h
  rw [os_path_basename, finalSegOf] at h
  have h2 : '/' ∈ s.data.reverse.takeWhile (fun c => !(c == '/')) :=
    List.mem_reverse.mp h
  have := List.mem_takeWhile_imp h2
  simp at this

theorem basename_join {f : String} (folder : String) (hf : '/' ∉ f.data) :
    os_path_basename (join folder f) = f := by
  have hq : ∀ a ∈ f.data.reverse, (fun c => !(c == '/')) a = true := by
    intro a ha
    rw [List.mem_reverse] at ha
    have hne : a ≠ '/' := by intro e; exact hf (e ▸ ha)
    simp [hne]
  unfold os_path_basename join finalSegOf
  rw [show (String.mk (folder.data ++ '/' :: f.data)).data = folder.data ++ '/' :: f.data
      from rfl]
  rw [List.reverse_append, List.reverse_cons, List.append_assoc, List.singleton_append]
  rw [takeWhile_append_all folder.data.reverse '/' hq (by decide)]
  rw [List.reverse_reverse]

/-! ### Folder-state lemmas -/

theorem fsGet_cons (e : String × String) (rest : Fs) (n : String) :
    fsGet (e :: rest) n = if e.1 == n then some e.2 else fsGet rest n := by
  by_cases h : (e.1 == n) = true
  · simp [fsGet, List.find?_cons_of_pos _ h, h]
  · simp [fsGet, List.find?_cons_of_neg _ h, h]

theorem fsRemove_cons (e : String × String) (rest : Fs) (m : String) :
    fsRemove (e :: rest) m =
      if e.1 == m then fsRemove rest m else e :: fsRemove rest m := by
  by_cases h : (e.1 == m) = true
  · simp [fsRemove, List.filter_cons, h]
  · simp only [Bool.not_eq_true] at h
    simp [fsRemove, List.filter_cons, h]

theorem fsGet_fsRemove_ne (fs : Fs) {n m : String} (h : n ≠ m) :
    fsGet (fsRemove fs m) n = fsGet fs n := by
  induction fs with
  | nil => rfl
  | cons e rest ih =>
    rw [fsRemove_cons, fsGet_cons]
    by_cases hm : (e.1 == m) = true
    · have hn : (e.1 == n) = false := by
        rw [beq_eq_false_iff_ne, beq_iff_eq.mp hm]
        exact fun e2 => h e2.symm
      rw [if_pos hm, if_neg (by simp [hn]), ih]
    · rw [if_neg hm, fsGet_cons]
      by_cases hn : (e.1 == n) = true
      · rw [if_pos hn, if_pos hn]
      · rw [if_neg hn, if_neg hn, ih]

theorem fsGet_fsSet_ne (fs : Fs) {n m : String} (v : String) (h : n ≠ m) :
    fsGet (fsSet fs m v) n = fsGet fs n := by
  have hn : (m == n) = false := beq_eq_false_iff_ne.mpr (fun e => h e.symm)
  rw [fsSet, fsGet_cons, if_neg (by simp [hn]), fsGet_fsRemove_ne fs h]

theorem fsGet_fsAddAll_fresh (ds : List (String × String)) (fs : Fs) {n : String}
    (h : ∀ pr ∈ ds, pr.1 ≠ n) : fsGet (fsAddAll fs ds) n = fsGet fs n := by
  induction ds generalizing fs with
  | nil => rfl
  | cons d ds ih =>
    have hd : d.1 ≠ n := h d (by simp)
    have step : fsAddAll fs (d :: ds) = fsAddAll (fsSet fs d.1 d.2) ds := rfl
    rw [step, ih (fsSet fs d.1 d.2) (fun pr hp => h pr (by simp [hp])),
      fsGet_fsSet_ne fs d.2 (fun e => hd e.symm)]

theorem fsGet_eq_none_iff (fs : Fs) (n : String) :
    fsGet fs n = none ↔ n ∉ fsNames fs := by
  induction fs with
  | nil => simp [fsGet, fsNames]
  | cons e rest ih =>
    by_cases he : e.1 = n
    · simp [fsGet, List.find?_cons, he, fsNames]
    · have he2 : (e.1 == n) = false := beq_eq_false_iff_ne.mpr he
      simp [fsGet, List.find?_cons, he2, fsNames] at ih ⊢
      constructor
      · intro hh
        exact ⟨fun e2 => he e2.symm, ih.mp hh⟩
      · intro hh
        exact ih.mpr hh.2

/-! ### Watcher lemmas -/

theorem find_new_pdf_spec {existing_files current_files : List String} {f : String}
    (h : find_new_pdf existing_files current_files = some f) :
    f ∈ current_files ∧ f ∉ existing_files ∧
      strHasSuffix f ".pdf" = true ∧ strHasSuffix f ".crdownload" = false := by
  have hmem := List.mem_of_find?_eq_some h
  have hp := List.find?_some h
  simp only [Bool.and_eq_true, Bool.not_eq_true'] at hp
  refine ⟨hmem, fun hin => ?_, hp.2.1, hp.2.2⟩
  have hc : List.elem f existing_files = false := hp.1
  rw [List.elem_iff.mpr hin] at hc
  cases hc

theorem wait_loop_ok {download_folder : String} {trace : Nat → List String}
    {existing_files : List String} {p : String} {t : Nat} :
    ∀ {fuel tick : Nat},
      wait_loop download_folder trace existing_files tick fuel = (Except.ok p, t) →
      ∃ f, find_new_pdf existing_files (trace t) = some f ∧ p = join download_folder f
  | 0, tick, h => by simp [wait_loop] at h
  | fuel + 1, tick, h => by
    rw [wait_loop] at h
    cases hf : find_new_pdf existing_files (trace tick) with
    | some f =>
      rw [hf] at h
      obtain ⟨h1, h2⟩ := Prod.mk.injEq .. ▸ h
      refine ⟨f, ?_, (Except.ok.injEq .. ▸ h1).symm⟩
      rw [← h2]; exact hf
    | none =>
      rw [hf] at h
      exact wait_loop_ok h

theorem wait_loop_timeout {download_folder : String} {trace : Nat → List String}
    {existing_files : List String}
    (h : ∀ t, find_new_pdf existing_files (trace t) = none) :
    ∀ (fuel tick : Nat),
      wait_loop download_folder trace existing_files tick fuel =
        (Except.error "PDF download timed out.", tick + fuel)
  | 0, tick => by simp [wait_loop]
  | fuel + 1, tick => by
    rw [wait_loop, h tick]
    show wait_loop download_folder trace existing_files (tick + 1) fuel =
      (Except.error "PDF download timed out.", tick + (fuel + 1))
    rw [wait_loop_timeout h fuel (tick + 1)]
    have harith : tick + 1 + fuel = tick + (fuel + 1) := by omega
    rw [harith]

/-! ### Orchestrator lemmas -/

theorem download_pdf_ok (url download_folder : String) (env : DlEnv) (fs : Fs)
    (h : is_valid_url url = false ∨ (extract_filename_from_url url).isOk = true) :
    ((download_pdf url download_folder env fs).2).isOk = true := by
  unfold download_pdf
  by_cases hv : is_valid_url url
  · simp only [hv, Bool.not_true, Bool.false_eq_true, if_false]
    cases hx : extract_filename_from_url url with
    | error e =>
      exfalso
      rcases h with h | h
      · rw [hv] at h; cases h
      · rw [hx] at h; simp [Except.isOk, Except.toBool] at h
    | ok filename =>
      simp only []
      repeat' split
      all_goals rfl
  · simp only [hv, Bool.not_false, if_true]
    rfl

theorem takeWhile_all {p : Char → Bool} {l : List Char}
    (h : ∀ a ∈ l, p a = true) : l.takeWhile p = l :=
  List.takeWhile_eq_self_iff.mpr h

theorem finalSegOf_of_no_slash {p : List Char} (h : p.contains '/' = false) :
    finalSegOf p = p := by
  have hs : '/' ∉ p := fun hm => by
    have h2 : List.elem '/' p = false := h
    rw [List.elem_iff.mpr hm] at h2
    cases h2
  have hq : ∀ a ∈ p.reverse, (fun c => !(c == '/')) a = true := by
    intro a ha
    rw [List.mem_reverse] at ha
    have hne : a ≠ '/' := fun e => hs (e ▸ ha)
    simp [hne]
  unfold finalSegOf
  rw [takeWhile_all hq, List.reverse_reverse]

theorem splitparams_eq_self {p : List Char}
    (h1 : ';' ∉ finalSegOf p) (h2 : p.contains ';' = true) :
    splitparams p = p := by
  unfold splitparams
  by_cases hs : p.contains '/' = true
  · have hn : ¬((finalSegOf p).contains ';' = true) := fun hc =>
      h1 (List.elem_iff.mp hc)
    rw [if_pos hs, if_neg hn]
  · have hsf : p.contains '/' = false := by simpa using hs
    exfalso
    rw [finalSegOf_of_no_slash hsf] at h1
    exact h1 (List.elem_iff.mp h2)

theorem wait_const_ok {download_folder : String} {current existing_files : List String}
    {timeout : Nat} {p : String}
    (h : (wait_for_pdf_download download_folder (fun _ => current) existing_files timeout).1
        = Except.ok p) :
    ∃ f, find_new_pdf existing_files current = some f ∧ p = join download_folder f := by
  have h2 : wait_for_pdf_download download_folder (fun _ => current) existing_files timeout
      = (Except.ok p,
        (wait_for_pdf_download download_folder (fun _ => current) existing_files timeout).2) := by
    rw [← h]
  rw [wait_for_pdf_download] at h2
  exact wait_loop_ok h2

/-! ## Claims -/

/-- Claim C1: for every state of the destination folder and every URL, if a
file whose name equals the filename derived from the URL is already present
when `download_pdf` is invoked, the orchestrator skips the URL and returns
with the folder unchanged; and no operation of the call ever overwrites a
file present in the folder before the download began.  The second part
assumes the browser drops its in-flight download files under fresh plain
filenames (no collision with the pre-existing folder contents, no slash),
which is how Chrome's own download naming behaves. -/
theorem claim_C1_never_overwrite (url download_folder : String) (env : DlEnv) (fs : Fs) :
    (∀ filename c, is_valid_url url = true →
       extract_filename_from_url url = Except.ok filename →
       fsGet fs filename = some c →
       download_pdf url download_folder env fs = (fs, Except.ok DlStatus.alreadyExists))
    ∧ (∀ n c, (∀ pr ∈ env.dropped, fsGet fs pr.1 = none ∧ '/' ∉ pr.1.data) →
       fsGet fs n = some c →
       fsGet (download_pdf url download_folder env fs).1 n = some c) := by
  constructor
  · intro filename c hv hx hg
    unfold download_pdf
    rw [hv]
    rw [if_neg (show ¬((!true) = true) from by simp)]
    rw [hx]
    have hfe : file_exists fs filename = true := by simp [file_exists, hg]
    simp [hfe]
  · intro n c hfresh hn
    unfold download_pdf
    by_cases hv : is_valid_url url = true
    · rw [hv]
      rw [if_neg (show ¬((!true) = true) from by simp)]
      cases hx : extract_filename_from_url url with
      | error e => exact hn
      | ok filename =>
        have hfs1 : fsGet (fsAddAll fs env.dropped) n = some c := by
          rw [fsGet_fsAddAll_fresh env.dropped fs ?fresh, hn]
          case fresh =>
            intro pr hp e
            have h0 := (hfresh pr hp).1
            rw [e] at h0
            rw [h0] at hn
            cases hn
        by_cases hex : file_exists fs filename = true
        · simp only [if_pos hex]
          exact hn
        · have hfn : fsGet fs filename = none :=
            Option.not_isSome_iff_eq_none.mp (by simpa [file_exists] using hex)
          simp only [if_neg hex]
          cases hnav : env.navOutcome with
          | error e => exact hn
          | ok u =>
            dsimp only
            cases hw : (wait_for_pdf_download download_folder
                (fun _ => fsNames (fsAddAll fs env.dropped)) (fsNames fs) 60).1 with
            | error e => exact hfs1
            | ok downloaded_path =>
              dsimp only
              cases hmv : env.moveOutcome with
              | error e => exact hfs1
              | ok u2 =>
                dsimp only
                cases hgetsrc : fsGet (fsAddAll fs env.dropped)
                    (os_path_basename downloaded_path) with
                | none => exact hfs1
                | some content =>
                  dsimp only
                  obtain ⟨f, hfind, hpath⟩ := wait_const_ok hw
                  obtain ⟨hmem, hnot, _, _⟩ := find_new_pdf_spec hfind
                  have hgetf : fsGet fs f = none := (fsGet_eq_none_iff fs f).mpr hnot
                  have hfd : ∃ pr ∈ env.dropped, pr.1 = f := by
                    by_contra hno
                    push_neg at hno
                    have heq := fsGet_fsAddAll_fresh env.dropped fs
                      (fun pr hp => hno pr hp)
                    rw [hgetf] at heq
                    exact ((fsGet_eq_none_iff (fsAddAll fs env.dropped) f).mp heq) hmem
                  obtain ⟨pr, hprm, hprf⟩ := hfd
                  have hfsl : '/' ∉ f.data := hprf ▸ (hfresh pr hprm).2
                  have hbn : os_path_basename downloaded_path = f := by
                    rw [hpath]
                    exact basename_join download_folder hfsl
                  have hnfn : n ≠ filename := fun e => by
                    rw [e] at hn
                    rw [hn] at hfn
                    cases hfn
                  have hnf : n ≠ f := fun e => by
                    rw [e, hgetf] at hn
                    cases hn
                  rw [hbn]
                  rw [fsGet_fsSet_ne _ content hnfn, fsGet_fsRemove_ne _ hnf, hfs1]
    · have hvf : is_valid_url url = false := by simpa using hv
      rw [hvf]
      rw [if_pos (show (!false) = true from rfl)]
      exact hn

/-- Closed witness for claim C1: with `report.pdf` already present, a download
for a URL deriving to `report.pdf` skips with the folder unchanged; and a
successful download of a fresh file leaves a pre-existing file's contents
intact. -/
theorem claim_C1_never_overwrite_witness :
    download_pdf "https://x.com/report.pdf" "PDFs"
        { navOutcome := Except.ok (), dropped := [], moveOutcome := Except.ok () }
        [("report.pdf", "OLD")]
      = ([("report.pdf", "OLD")], Except.ok DlStatus.alreadyExists)
    ∧ fsGet (download_pdf "https://x.com/new.pdf" "PDFs"
        { navOutcome := Except.ok (), dropped := [("tmp123.pdf", "NEW")],
          moveOutcome := Except.ok () }
        [("keep.pdf", "OLD")]).1 "keep.pdf" = some "OLD" := by
  constructor
  · exact (claim_C1_never_overwrite "https://x.com/report.pdf" "PDFs"
      { navOutcome := Except.ok (), dropped := [], moveOutcome := Except.ok () }
      [("report.pdf", "OLD")]).1 "report.pdf" "OLD" (by decide) (by decide) (by decide)
  · exact (claim_C1_never_overwrite "https://x.com/new.pdf" "PDFs"
      { navOutcome := Except.ok (), dropped := [("tmp123.pdf", "NEW")],
        moveOutcome := Except.ok () }
      [("keep.pdf", "OLD")]).2 "keep.pdf" "OLD" (by decide) (by decide)

/-- Claim C2: any path the watcher returns names a file absent from the
baseline whose name ends in ".pdf" and not in ".crdownload"; and in the
scenario where "x.pdf.crdownload" appears after 1 time unit and is replaced
by "x.pdf" after 2 units, a call with timeout 5 returns the path of "x.pdf"
(at tick 4, i.e. elapsed time 2 units) and never the partial-marker file. -/
theorem claim_C2_watcher_returns_new_pdf :
    (∀ (download_folder : String) (trace : Nat → List String)
       (existing_files : List String) (timeout : Nat) (p : String) (t : Nat),
       wait_for_pdf_download download_folder trace existing_files timeout =
         (Except.ok p, t) →
       ∃ f, p = join download_folder f ∧ f ∈ trace t ∧ f ∉ existing_files ∧
         strHasSuffix f ".pdf" = true ∧ strHasSuffix f ".crdownload" = false)
    ∧ ∀ download_folder : String,
        wait_for_pdf_download download_folder scenario_trace [] 5 =
          (Except.ok (join download_folder "x.pdf"), 4) := by
  constructor
  · intro folder trace ex timeout p t h
    rw [wait_for_pdf_download] at h
    obtain ⟨f, hfind, hpath⟩ := wait_loop_ok h
    obtain ⟨hmem, hnotin, hpdf, hcr⟩ := find_new_pdf_spec hfind
    exact ⟨f, hpath, hmem, hnotin, hpdf, hcr⟩
  · intro folder
    rfl

/-- Closed witness for claim C2, instantiating the general part on the
scenario run. -/
theorem claim_C2_watcher_returns_new_pdf_witness :
    ∃ f, join "PDFs" "x.pdf" = join "PDFs" f ∧ f ∈ scenario_trace 4 ∧
      f ∉ ([] : List String) ∧ strHasSuffix f ".pdf" = true ∧
      strHasSuffix f ".crdownload" = false :=
  claim_C2_watcher_returns_new_pdf.1 "PDFs" scenario_trace [] 5
    (join "PDFs" "x.pdf") 4 (by decide)

/-- Claim C3: when no qualifying new ".pdf" file ever appears, the watcher
raises the TimeoutError condition (modelled as the `Except.error`) instead of
returning a path, after exactly `2 * timeout` polls — one poll every half
time unit, so the raise happens at elapsed time `timeout`; with timeout 1 it
raises after 2 polls, i.e. within 1 time unit.  Termination is by
construction, so the call cannot hang. -/
theorem claim_C3_watcher_timeout :
    (∀ (download_folder : String) (trace : Nat → List String)
       (existing_files : List String) (timeout : Nat),
       (∀ t, find_new_pdf existing_files (trace t) = none) →
       wait_for_pdf_download download_folder trace existing_files timeout =
         (Except.error "PDF download timed out.", 2 * timeout))
    ∧ ∀ download_folder : String,
        wait_for_pdf_download download_folder (fun _ => []) [] 1 =
          (Except.error "PDF download timed out.", 2) := by
  constructor
  · intro folder trace ex timeout h
    rw [wait_for_pdf_download, wait_loop_timeout h (2 * timeout) 0, Nat.zero_add]
  · intro folder
    rfl

/-- Closed witness for claim C3, instantiating the general part on the
empty-folder run with timeout 1. -/
theorem claim_C3_watcher_timeout_witness :
    wait_for_pdf_download "PDFs" (fun _ => []) [] 1 =
      (Except.error "PDF download timed out.", 2 * 1) :=
  claim_C3_watcher_timeout.1 "PDFs" (fun _ => []) [] 1 (fun _ => rfl)

/-- Claim C4: on the anchor list `["/a.PDF", "b.pdf", "b.pdf", "/img.png"]`,
the extraction pipeline returns exactly the set containing "/a.PDF" and
"b.pdf": case-insensitive suffix match on the decoded href, raw values kept,
duplicates removed, non-PDF links excluded. -/
theorem claim_C4_extractor_set :
    (remove_duplicates_from_slice
        (parse_html ["/a.PDF", "b.pdf", "b.pdf", "/img.png"])).toFinset =
      ({"/a.PDF", "b.pdf"} : Finset String)
    ∧ (remove_duplicates_from_slice
        (parse_html ["/a.PDF", "b.pdf", "b.pdf", "/img.png"])).Nodup := by
  constructor
  · decide
  · decide

/-- Counterexample to claim C5 as stated: on
`"https://x.com/file;v=1.pdf"` the code derives `"file"` because
`urlparse` additionally splits the `;parameters` section off the path for
common schemes, while the spec's reference derivation (path component with
only query and fragment discarded) yields `"file;v=1.pdf"`. -/
theorem claim_C5_counterexample :
    extract_filename_from_url "https://x.com/file;v=1.pdf" = Except.ok "file"
    ∧ spec_derive_filename "https://x.com/file;v=1.pdf" = Except.ok "file;v=1.pdf"
    ∧ extract_filename_from_url "https://x.com/file;v=1.pdf" ≠
        spec_derive_filename "https://x.com/file;v=1.pdf" := by
  refine ⟨by decide, by decide, by decide⟩

/-- Claim C5 as amended: the filename deriver equals the spec's reference
definition on every URL except those whose path's final segment contains a
semicolon under a parameter-using scheme (where `urlparse` also discards the
`;parameters` section); parse failures propagate identically; and
`"https://x.com/"` derives the fallback `"downloaded.pdf"`.  Determinism and
purity hold by construction: the deriver is a function of the URL alone. -/
theorem claim_C5_derive_matches_spec :
    (∀ (url : String) (r : UrlSplitResult), urlsplit url = Except.ok r →
       ¬(uses_params.contains r.scheme = true ∧ ';' ∈ finalSegOf r.path.data) →
       extract_filename_from_url url = spec_derive_filename url)
    ∧ (∀ (url : String) (e : String), urlsplit url = Except.error e →
       extract_filename_from_url url = Except.error e ∧
         spec_derive_filename url = Except.error e)
    ∧ extract_filename_from_url "https://x.com/" = Except.ok "downloaded.pdf" := by
  refine ⟨?_, ?_, by decide⟩
  · intro url r hr hno
    unfold extract_filename_from_url spec_derive_filename urlparse_path
    rw [hr]
    dsimp only
    by_cases hc : (uses_params.contains r.scheme && r.path.data.contains ';') = true
    · rw [if_pos hc]
      rw [Bool.and_eq_true] at hc
      have hsemi : ';' ∉ finalSegOf r.path.data := fun hm => hno ⟨hc.1, hm⟩
      rw [splitparams_eq_self hsemi hc.2]
      rfl
    · rw [if_neg hc]
      rfl
  · intro url e he
    unfold extract_filename_from_url spec_derive_filename urlparse_path
    rw [he]
    exact ⟨rfl, rfl⟩

/-- Closed witness for the amended claim C5, on a URL whose final path
segment has no semicolon. -/
theorem claim_C5_derive_matches_spec_witness :
    extract_filename_from_url "https://x.com/a.pdf" =
      spec_derive_filename "https://x.com/a.pdf" :=
  claim_C5_derive_matches_spec.1 "https://x.com/a.pdf"
    { scheme := "https", netloc := "x.com", path := "/a.pdf",
      query := "", fragment := "" }
    (by decide) (by decide)

/-- Claim C6 (spec-modelled): the URL validator is a pure boolean test that
returns false on the empty string, on every string lacking the scheme
separator, on every string whose authority section has an empty
host-and-port part, and on every string whose authority section is
malformed. -/
theorem claim_C6_validator_rejects :
    is_valid_url "" = false
    ∧ (∀ s : String, splitSchemeSep s.data = none → is_valid_url s = false)
    ∧ (∀ (s : String) (pr : List Char × List Char),
        splitSchemeSep s.data = some pr →
        afterLastAt (pr.2.takeWhile (fun c => !netlocDelim c)) = [] →
        is_valid_url s = false)
    ∧ (∀ (s : String) (pr : List Char × List Char),
        splitSchemeSep s.data = some pr →
        validHostPort (afterLastAt (pr.2.takeWhile (fun c => !netlocDelim c))) = false →
        is_valid_url s = false) := by
  refine ⟨rfl, ?_, ?_, ?_⟩
  · intro s h
    unfold is_valid_url
    rw [h]
  · intro s pr h hempty
    obtain ⟨sch, rest⟩ := pr
    unfold is_valid_url
    rw [h]
    dsimp only
    rw [hempty]
    simp [validHostPort]
  · intro s pr h hval
    obtain ⟨sch, rest⟩ := pr
    unfold is_valid_url
    rw [h]
    dsimp only
    rw [hval]
    simp

/-- Closed witness for claim C6: a scheme-less string, an empty-host URL and
an unbalanced-bracket authority are all rejected. -/
theorem claim_C6_validator_rejects_witness :
    is_valid_url "x.com/a.pdf" = false
    ∧ is_valid_url "http:///a.pdf" = false
    ∧ is_valid_url "http://[abc/x.pdf" = false := by
  refine ⟨?_, ?_, ?_⟩
  · exact claim_C6_validator_rejects.2.1 "x.com/a.pdf" (by decide)
  · exact claim_C6_validator_rejects.2.2.1 "http:///a.pdf" ("http".data, "/a.pdf".data)
      (by decide) (by decide)
  · exact claim_C6_validator_rejects.2.2.2 "http://[abc/x.pdf"
      ("http".data, "[abc/x.pdf".data) (by decide) (by decide)

/-- Claim C7: exceptions during browser navigation, download waiting, or the
final move are caught per URL inside `download_pdf`, which then returns
normally, so the batch loop processes every URL regardless of such failures
(one status per URL).  The hypothesis excludes only the filename-derivation
step, which runs outside the `try` block and is not covered by the claim. -/
theorem claim_C7_failures_isolated (download_folder : String) (fs : Fs)
    (items : List (String × DlEnv))
    (h : ∀ it ∈ items, is_valid_url (normalize_link it.1) = true →
        (extract_filename_from_url (normalize_link it.1)).isOk = true) :
    ∃ sts, (process_urls download_folder fs items).2 = Except.ok sts ∧
      sts.length = items.length := by
  induction items generalizing fs with
  | nil => exact ⟨[], rfl, rfl⟩
  | cons it rest ih =>
    obtain ⟨link, env⟩ := it
    by_cases hv : is_valid_url (normalize_link link) = true
    · have hok := download_pdf_ok (normalize_link link) download_folder env fs
        (Or.inr (h (link, env) (by simp) hv))
      rcases hd : download_pdf (normalize_link link) download_folder env fs with ⟨fs', r⟩
      rw [hd] at hok
      cases r with
      | error e => simp [Except.isOk, Except.toBool] at hok
      | ok st =>
        obtain ⟨sts, h1, h2⟩ := ih fs' (fun it2 hit => h it2 (by simp [hit]))
        refine ⟨st :: sts, ?_, by simp [h2]⟩
        rw [process_urls]
        rw [if_neg (by simp [hv])]
        rw [hd]
        simp [h1, Except.map]
    · obtain ⟨sts, h1, h2⟩ := ih fs (fun it2 hit => h it2 (by simp [hit]))
      refine ⟨DlStatus.invalidUrl :: sts, ?_, by simp [h2]⟩
      rw [process_urls]
      rw [if_pos (by simp [hv])]
      simp [h1, Except.map]

/-- Closed witness for claim C7: a batch of three links — one whose download
times out (nothing is dropped into the folder), one whose navigation raises,
and one that succeeds — still yields one status per link. -/
theorem claim_C7_failures_isolated_witness :
    ∃ sts, (process_urls "PDFs" []
        [("https://x.com/a.pdf",
          { navOutcome := Except.ok (), dropped := [], moveOutcome := Except.ok () }),
         ("https://x.com/b.pdf",
          { navOutcome := Except.error "net down", dropped := [],
            moveOutcome := Except.ok () }),
         ("https://x.com/c.pdf",
          { navOutcome := Except.ok (), dropped := [("c.pdf", "DATA")],
            moveOutcome := Except.ok () })]).2 = Except.ok sts ∧
      sts.length = 3 :=
  claim_C7_failures_isolated "PDFs" [] _ (by decide)

/-- Claim C8: on every execution of `main` after the browser session is
acquired — snapshot hit or miss, fetch failure, download failures, caught
exceptions — the browser session is closed before the run ends. -/
theorem claim_C8_driver_always_quit (env : MainEnv) :
    (main_run env).driverQuit = true := rfl

/-- Counterexample to claim C9 as stated: when the snapshot file is absent
but the seed-page fetch raises, the run writes the snapshot file zero times,
not exactly once. -/
theorem claim_C9_counterexample :
    fetchFailEnv.snapshot0 = none ∧ (main_run fetchFailEnv).snapshotWrites ≠ 1 := by
  refine ⟨rfl, by decide⟩

/-- Claim C9 as amended: if the snapshot file exists when main starts, the
browser never navigates to the seed page, the snapshot is not written and its
contents are unchanged, and the PDF links are parsed from its contents; if
the file is absent, the rendered seed HTML is written to it exactly once when
the fetch succeeds, and not at all (rather than once) when the fetch
raises. -/
theorem claim_C9_snapshot_cache :
    (∀ (env : MainEnv) (doc : HtmlDoc), env.snapshot0 = some doc →
       (main_run env).seedNavigated = false ∧ (main_run env).snapshotWrites = 0 ∧
       (main_run env).snapshot = some doc ∧
       (main_run env).links = remove_duplicates_from_slice (parse_html doc))
    ∧ (∀ (env : MainEnv) (doc : HtmlDoc), env.snapshot0 = none →
       env.fetchOutcome = Except.ok doc →
       (main_run env).snapshotWrites = 1 ∧ (main_run env).snapshot = some doc)
    ∧ (∀ (env : MainEnv) (e : String), env.snapshot0 = none →
       env.fetchOutcome = Except.error e →
       (main_run env).snapshotWrites = 0) := by
  refine ⟨?_, ?_, ?_⟩
  · intro env doc h
    unfold main_run
    rw [h]
    exact ⟨rfl, rfl, rfl, rfl⟩
  · intro env doc h hf
    unfold main_run
    rw [h, hf]
    exact ⟨rfl, rfl⟩
  · intro env e h hf
    unfold main_run
    rw [h, hf]

/-- Closed witness for the amended claim C9, on a cached run and on a
successful first fetch. -/
theorem claim_C9_snapshot_cache_witness :
    ((main_run cachedEnv).seedNavigated = false ∧
      (main_run cachedEnv).snapshotWrites = 0 ∧
      (main_run cachedEnv).snapshot = some ["/a.pdf"] ∧
      (main_run cachedEnv).links = remove_duplicates_from_slice (parse_html ["/a.pdf"]))
    ∧ (main_run freshFetchEnv).snapshotWrites = 1 ∧
      (main_run freshFetchEnv).snapshot = some ["/a.pdf"] :=
  ⟨claim_C9_snapshot_cache.1 cachedEnv ["/a.pdf"] rfl,
   claim_C9_snapshot_cache.2.1 freshFetchEnv ["/a.pdf"] rfl rfl⟩

/-- Counterexample to claim C10 as stated: the filename deriver does not
return a filename on every input string — on `"http://["` it propagates the
`ValueError("Invalid IPv6 URL")` raised by `urlparse`. -/
theorem claim_C10_counterexample :
    extract_filename_from_url "http://[" = Except.error "Invalid IPv6 URL" := by
  decide

/-- Claim C10 as amended: on every input string on which the deriver returns
at all (the URL parser does not reject the authority section), the result is
a non-empty, fully lower-cased string containing no path separator, so it
names a single entry directly inside the destination folder. -/
theorem claim_C10_filename_shape (url name : String)
    (h : extract_filename_from_url url = Except.ok name) :
    name ≠ "" ∧ py_lower name = name ∧ '/' ∉ name.data := by
  unfold extract_filename_from_url at h
  cases hp : urlparse_path url with
  | error e => rw [hp] at h; cases h
  | ok path =>
    rw [hp] at h
    have hname : (if py_lower (os_path_basename (unquote path)) == "" then
        "downloaded.pdf" else py_lower (os_path_basename (unquote path))) = name :=
      Except.ok.injEq .. ▸ h
    by_cases hb : (py_lower (os_path_basename (unquote path)) == "") = true
    · rw [if_pos hb] at hname
      rw [← hname]
      refine ⟨by decide, by decide, by decide⟩
    · rw [if_neg hb] at hname
      rw [← hname]
      refine ⟨by simpa using hb, py_lower_idem _, fun hm => ?_⟩
      exact not_slash_mem_basename (unquote path) (slash_mem_of_mem_py_lower hm)

/-- Closed witness for the amended claim C10, on a URL with an upper-case
percent-encoded path. -/
theorem claim_C10_filename_shape_witness :
    "a.pdf" ≠ "" ∧ py_lower "a.pdf" = "a.pdf" ∧ '/' ∉ "a.pdf".data :=
  claim_C10_filename_shape "https://x.com/%41.PDF" "a.pdf" (by decide)

end Millcraft
